import Mathlib

/-!
# Verification of the PrivatePoll contract

Shallow embedding of `contracts/PrivatePoll.sol`, the Poll Registry and
Response Ledger of the repository.  Addresses are modelled as naturals with
`0` playing the role of `address(0)`; `block.timestamp` is a natural passed
explicitly to each call as `now`; Solidity 0.8 arithmetic reverts on
overflow, so `uint256` values that only ever grow are modelled as `Nat`.
Solidity mappings are total functions returning the zero value by default,
exactly as on chain.  The FHE library calls (`FHE.fromExternal`,
`FHE.allow`) belong to the external Zama library, which is not part of this
repository's sources; the conversion is modelled from the spec as an opaque
payload carrying the Encryption Provider's verdict.
-/

namespace PrivatePoll

/-- Struct `EncryptedResponse` of the contract: respondent address, the euint32 handle
obtained from `FHE.fromExternal`, and the submission timestamp. -/
structure EncryptedResponse where
  respondent : Nat
  encryptedValue : Nat
  submittedAt : Nat
deriving DecidableEq

/-- Struct `Poll` of the contract, field for field. -/
structure Poll where
  creator : Nat
  question : String
  minValue : Nat
  maxValue : Nat
  endTime : Nat
  createdAt : Nat
  responseCount : Nat
  isActive : Bool
deriving DecidableEq

/-- The default value of a Solidity `Poll` storage slot: all fields zero. -/
def emptyPoll : Poll :=
  { creator := 0, question := "", minValue := 0, maxValue := 0,
    endTime := 0, createdAt := 0, responseCount := 0, isActive := false }

/-- Modelled from the spec: the opaque payload produced by the external
Encryption Provider — a ciphertext handle plus a validity proof, never
interpreted by this core.  The `valid` flag records the Encryption
Provider's verdict on the (handle, proof) pair. -/
structure Payload where
  handle : Nat
  proofBytes : List Nat
  valid : Bool
deriving DecidableEq

/-- Modelled from the spec: `FHE.fromExternal` of the external Zama FHEVM
library (not part of this repository's sources).  Converts an external
encrypted input and its input proof into an euint32 handle; the call fails
(reverting the transaction) when the payload is not well-formed per the
Encryption Provider's contract. -/
def fheFromExternal (p : Payload) : Option Nat :=
  if p.valid then some p.handle else none

/-- The failure taxonomy of the spec.  The three validation constructors
name the violated field, matching the three distinct `require` messages of
`createPoll`. -/
inductive PollError where
  | validationEmptyQuestion
  | validationRange
  | validationEndTime
  | notFoundError
  | pollInactiveError
  | pollExpiredError
  | duplicateResponseError
  | invalidPayloadError
  | authorizationError
  | alreadyClosedError
deriving DecidableEq

/-- Whether a failure is one of the three creation `ValidationError`s. -/
def PollError.isValidation : PollError → Bool
  | validationEmptyQuestion => true
  | validationRange => true
  | validationEndTime => true
  | _ => false

/-- The contract's storage: the five mappings and the counter. -/
structure PollState where
  polls : Nat → Poll
  pollResponses : Nat → List EncryptedResponse
  hasResponded : Nat → Nat → Bool
  userPolls : Nat → List Nat
  userResponses : Nat → List Nat
  pollCounter : Nat

/-- Point update of a mapping. -/
def upd {α : Type} (f : Nat → α) (k : Nat) (v : α) : Nat → α :=
  fun i => if i = k then v else f i

/-- Point update of a two-key mapping. -/
def upd2 (f : Nat → Nat → Bool) (k₁ k₂ : Nat) (v : Bool) : Nat → Nat → Bool :=
  fun i j => if i = k₁ ∧ j = k₂ then v else f i j

/-- Freshly deployed contract: every mapping at its zero value, counter 0. -/
def initialState : PollState :=
  { polls := fun _ => emptyPoll,
    pollResponses := fun _ => [],
    hasResponded := fun _ _ => false,
    userPolls := fun _ => [],
    userResponses := fun _ => [],
    pollCounter := 0 }

/-- Function `createPoll` of the contract.  The three `require`s in source order
(non-empty question, `minValue < maxValue`, `endTime > block.timestamp`);
on success allocates `pollId = pollCounter`, increments the counter, stores
the new poll and appends the id to the creator's `userPolls` index,
returning the id. -/
def createPoll (s : PollState) (now : Nat) (question : String)
    (minValue maxValue endTime : Nat) (sender : Nat) :
    Except PollError (PollState × Nat) :=
  if question.length = 0 then .error .validationEmptyQuestion
  else if ¬ minValue < maxValue then .error .validationRange
  else if ¬ endTime > now then .error .validationEndTime
  else
    let pollId := s.pollCounter
    let newPoll : Poll :=
      { creator := sender, question := question, minValue := minValue,
        maxValue := maxValue, endTime := endTime, createdAt := now,
        responseCount := 0, isActive := true }
    .ok ({ s with
            polls := upd s.polls pollId newPoll,
            userPolls := upd s.userPolls sender (s.userPolls sender ++ [pollId]),
            pollCounter := s.pollCounter + 1 },
         pollId)

/-- The linear scan of `userResponses[msg.sender]` done by `submitResponse`
before appending (the `alreadyInList` loop, with its early `break`). -/
def containsScan (l : List Nat) (x : Nat) : Bool :=
  match l with
  | [] => false
  | y :: ys => if y = x then true else containsScan ys x

/-- Function `submitResponse` of the contract.  The four `require`s in source order
(poll exists, poll active, not past `endTime`, no previous response), then
`FHE.fromExternal` — whose failure on a malformed payload reverts the
transaction, surfacing as the fifth distinct failure.  The two `FHE.allow`
grants are access-control side effects inside the external library and do
not touch the storage modelled here.  On success: appends the response,
sets the `hasResponded` flag, increments `responseCount`, and appends
`pollId` to `userResponses[msg.sender]` only when the scan did not find it. -/
def submitResponse (s : PollState) (now : Nat) (pollId : Nat)
    (payload : Payload) (sender : Nat) : Except PollError PollState :=
  let poll := s.polls pollId
  if poll.creator = 0 then .error .notFoundError
  else if poll.isActive = false then .error .pollInactiveError
  else if ¬ now ≤ poll.endTime then .error .pollExpiredError
  else if s.hasResponded pollId sender = true then .error .duplicateResponseError
  else
    match fheFromExternal payload with
    | none => .error .invalidPayloadError
    | some value =>
      let resp : EncryptedResponse :=
        { respondent := sender, encryptedValue := value, submittedAt := now }
      let s₁ : PollState :=
        { s with
          pollResponses := upd s.pollResponses pollId (s.pollResponses pollId ++ [resp]),
          hasResponded := upd2 s.hasResponded pollId sender true,
          polls := upd s.polls pollId { poll with responseCount := poll.responseCount + 1 } }
      if containsScan (s₁.userResponses sender) pollId = true then .ok s₁
      else .ok { s₁ with
        userResponses := upd s₁.userResponses sender (s₁.userResponses sender ++ [pollId]) }

/-- Function `closePoll` of the contract: first `require(poll.creator == msg.sender)`,
then `require(poll.isActive)`, then sets `isActive = false`. -/
def closePoll (s : PollState) (pollId : Nat) (sender : Nat) :
    Except PollError PollState :=
  let poll := s.polls pollId
  if ¬ poll.creator = sender then .error .authorizationError
  else if poll.isActive = false then .error .alreadyClosedError
  else .ok { s with polls := upd s.polls pollId { poll with isActive := false } }

/-- The selection condition of `getActivePolls`: poll exists, is active,
and `block.timestamp <= poll.endTime`. -/
def isOpenPoll (s : PollState) (now : Nat) (pollId : Nat) : Bool :=
  decide ((s.polls pollId).creator ≠ 0) && (s.polls pollId).isActive
    && decide (now ≤ (s.polls pollId).endTime)

/-- The descending scan loop of `getActivePolls`: `i` counts down from
`pollCounter`, the poll inspected is `i - 1`, and the loop stops when the
remaining budget (`_limit - count`) reaches zero or the ids are exhausted. -/
def activeScan (s : PollState) (now : Nat) : Nat → Nat → List Nat
  | 0, _ => []
  | i + 1, remaining =>
    if remaining = 0 then []
    else if isOpenPoll s now i then i :: activeScan s now i (remaining - 1)
    else activeScan s now i remaining

/-- Function `getActivePolls` of the contract (the trailing copy into a
`count`-sized array only trims the unused tail and is the identity on the
collected ids). -/
def getActivePolls (s : PollState) (now : Nat) (limit : Nat) : List Nat :=
  activeScan s now s.pollCounter limit

/-- Specification-side description of the active-poll listing: all created
ids in descending order, filtered to the open ones. -/
def openPollsDesc (s : PollState) (now : Nat) : List Nat :=
  (List.range s.pollCounter).reverse.filter (isOpenPoll s now)

/-- One externally visible mutating call, with its caller and the block
timestamp at which it runs. -/
inductive Op where
  | create (now : Nat) (question : String) (minValue maxValue endTime : Nat) (sender : Nat)
  | submit (now : Nat) (pollId : Nat) (payload : Payload) (sender : Nat)
  | close (pollId : Nat) (sender : Nat)

/-- The caller (`msg.sender`) of an operation. -/
def Op.sender : Op → Nat
  | create _ _ _ _ _ c => c
  | submit _ _ _ c => c
  | close _ c => c

/-- Transaction semantics: a failing call reverts, leaving the storage
unchanged; a succeeding call commits the new storage. -/
def applyOp (s : PollState) : Op → PollState
  | .create now q mn mx et c =>
    match createPoll s now q mn mx et c with
    | .ok (t, _) => t
    | .error _ => s
  | .submit now pid payload c =>
    match submitResponse s now pid payload c with
    | .ok t => t
    | .error _ => s
  | .close pid c =>
    match closePoll s pid c with
    | .ok t => t
    | .error _ => s

/-- A whole trace of calls, applied in order. -/
def applyOps (s : PollState) (ops : List Op) : PollState :=
  ops.foldl applyOp s

/-- Reachable contract storage: the fresh deployment, closed under calls.
`op.sender ≠ 0` models the execution environment's guarantee that
`msg.sender` is never `address(0)`. -/
inductive Reachable : PollState → Prop where
  | init : Reachable initialState
  | step {s : PollState} (op : Op) :
      Reachable s → op.sender ≠ 0 → Reachable (applyOp s op)

/-! ## Basic lemmas about the storage primitives -/

theorem upd_same {α : Type} (f : Nat → α) (k : Nat) (v : α) : upd f k v k = v := by
  simp [upd]

theorem upd_ne {α : Type} (f : Nat → α) {k i : Nat} (v : α) (h : i ≠ k) :
    upd f k v i = f i := by
  simp [upd, h]

theorem upd2_same (f : Nat → Nat → Bool) (k₁ k₂ : Nat) (v : Bool) :
    upd2 f k₁ k₂ v k₁ k₂ = v := by
  simp [upd2]

theorem upd2_ne (f : Nat → Nat → Bool) {k₁ k₂ i j : Nat} (v : Bool)
    (h : ¬ (i = k₁ ∧ j = k₂)) : upd2 f k₁ k₂ v i j = f i j := by
  simp only [upd2, if_neg h]

theorem containsScan_eq_true_iff (l : List Nat) (x : Nat) :
    containsScan l x = true ↔ x ∈ l := by
  induction l with
  | nil => simp [containsScan]
  | cons y ys ih =>
    by_cases h : y = x
    · subst h; simp [containsScan]
    · simp [containsScan, h, ih, Ne.symm h]

/-! ## Elimination lemmas for the three mutating calls -/

theorem createPoll_ok_elim {s : PollState} {now : Nat} {q : String}
    {mn mx et c : Nat} {t : PollState} {pid : Nat}
    (h : createPoll s now q mn mx et c = .ok (t, pid)) :
    q.length ≠ 0 ∧ mn < mx ∧ et > now ∧ pid = s.pollCounter ∧
    t = { s with
          polls := upd s.polls s.pollCounter
            { creator := c, question := q, minValue := mn, maxValue := mx,
              endTime := et, createdAt := now, responseCount := 0, isActive := true },
          userPolls := upd s.userPolls c (s.userPolls c ++ [s.pollCounter]),
          pollCounter := s.pollCounter + 1 } := by
  simp only [createPoll] at h
  split at h
  · cases h
  · split at h
    · cases h
    · split at h
      · cases h
      · rename_i h1 h2 h3
        simp only [Except.ok.injEq, Prod.mk.injEq] at h
        exact ⟨h1, not_not.mp h2, not_not.mp h3, h.2.symm, h.1.symm⟩

theorem closePoll_ok_elim {s : PollState} {pid c : Nat} {t : PollState}
    (h : closePoll s pid c = .ok t) :
    (s.polls pid).creator = c ∧ (s.polls pid).isActive = true ∧
    t = { s with polls := upd s.polls pid { s.polls pid with isActive := false } } := by
  simp only [closePoll] at h
  split at h
  · cases h
  · split at h
    · cases h
    · rename_i h1 h2
      simp only [Except.ok.injEq] at h
      exact ⟨not_not.mp h1, Bool.not_eq_false _ |>.mp h2, h.symm⟩

theorem submitResponse_ok_elim {s : PollState} {now pid : Nat}
    {payload : Payload} {c : Nat} {t : PollState}
    (h : submitResponse s now pid payload c = .ok t) :
    (s.polls pid).creator ≠ 0 ∧ (s.polls pid).isActive = true ∧
    now ≤ (s.polls pid).endTime ∧ s.hasResponded pid c = false ∧
    ∃ v, fheFromExternal payload = some v ∧
      t = (let s₁ : PollState :=
            { s with
              pollResponses := upd s.pollResponses pid
                (s.pollResponses pid ++
                  [{ respondent := c, encryptedValue := v, submittedAt := now }]),
              hasResponded := upd2 s.hasResponded pid c true,
              polls := upd s.polls pid
                { s.polls pid with responseCount := (s.polls pid).responseCount + 1 } }
           if containsScan (s₁.userResponses c) pid = true then s₁
           else { s₁ with
             userResponses := upd s₁.userResponses c (s₁.userResponses c ++ [pid]) }) := by
  simp only [submitResponse] at h
  split at h
  · cases h
  · split at h
    · cases h
    · split at h
      · cases h
      · split at h
        · cases h
        · rename_i h1 h2 h3 h4
          split at h
          · cases h
          · rename_i v hv
            refine ⟨h1, Bool.not_eq_false _ |>.mp h2, not_not.mp h3,
              Bool.not_eq_true _ |>.mp h4, v, hv, ?_⟩
            split at h
            · rename_i hscan
              cases h
              simp only [hscan, if_true]
            · rename_i hscan
              cases h
              simp only [Bool.not_eq_true] at hscan
              simp only [hscan]
              rfl

/-! ## The registry invariant -/

/-- Coupling invariant of the registry: slots at or above the counter are
blank, polls below it exist, the stored counter agrees with the response
collection, the membership flag agrees with the collection, and both the
per-poll respondent list and the per-user responded index are duplicate
free. -/
structure Inv (s : PollState) : Prop where
  fresh_poll : ∀ p, s.pollCounter ≤ p → s.polls p = emptyPoll
  fresh_resp : ∀ p, s.pollCounter ≤ p → s.pollResponses p = []
  created_ne : ∀ p, p < s.pollCounter → (s.polls p).creator ≠ 0
  count_eq : ∀ p, (s.polls p).responseCount = (s.pollResponses p).length
  flag_iff : ∀ p r, s.hasResponded p r = true ↔
    r ∈ (s.pollResponses p).map EncryptedResponse.respondent
  resp_nodup : ∀ p, ((s.pollResponses p).map EncryptedResponse.respondent).Nodup
  userResp_nodup : ∀ r, (s.userResponses r).Nodup

theorem inv_initial : Inv initialState := by
  constructor <;> simp [initialState, emptyPoll]

theorem createPoll_ok_inv {s : PollState} {now : Nat} {q : String}
    {mn mx et c : Nat} {t : PollState} {pid : Nat}
    (hc : c ≠ 0) (hs : Inv s)
    (h : createPoll s now q mn mx et c = .ok (t, pid)) : Inv t := by
  obtain ⟨-, -, -, -, ht⟩ := createPoll_ok_elim h
  subst ht
  constructor <;> dsimp only
  · intro p hp
    rw [upd_ne _ _ (by omega : p ≠ s.pollCounter)]
    exact hs.fresh_poll p (by omega)
  · intro p hp
    exact hs.fresh_resp p (by omega)
  · intro p hp
    by_cases hpe : p = s.pollCounter
    · subst hpe; rw [upd_same]; exact hc
    · rw [upd_ne _ _ hpe]; exact hs.created_ne p (by omega)
  · intro p
    by_cases hpe : p = s.pollCounter
    · subst hpe; rw [upd_same, hs.fresh_resp s.pollCounter le_rfl]; rfl
    · rw [upd_ne _ _ hpe]; exact hs.count_eq p
  · exact hs.flag_iff
  · exact hs.resp_nodup
  · exact hs.userResp_nodup

theorem closePoll_ok_inv {s : PollState} {pid c : Nat} {t : PollState}
    (hs : Inv s) (h : closePoll s pid c = .ok t) : Inv t := by
  obtain ⟨hcr, hact, ht⟩ := closePoll_ok_elim h
  have hlt : pid < s.pollCounter := by
    by_contra hge
    have := hs.fresh_poll pid (by omega)
    rw [this] at hact
    simp [emptyPoll] at hact
  subst ht
  constructor <;> dsimp only
  · intro p hp
    rw [upd_ne _ _ (by omega : p ≠ pid)]
    exact hs.fresh_poll p hp
  · exact hs.fresh_resp
  · intro p hp
    by_cases hpe : p = pid
    · subst hpe; rw [upd_same]; exact hs.created_ne p hp
    · rw [upd_ne _ _ hpe]; exact hs.created_ne p hp
  · intro p
    by_cases hpe : p = pid
    · subst hpe; rw [upd_same]; exact hs.count_eq p
    · rw [upd_ne _ _ hpe]; exact hs.count_eq p
  · exact hs.flag_iff
  · exact hs.resp_nodup
  · exact hs.userResp_nodup

theorem submitResponse_ok_inv {s : PollState} {now pid : Nat}
    {payload : Payload} {c : Nat} {t : PollState}
    (hc : c ≠ 0) (hs : Inv s)
    (h : submitResponse s now pid payload c = .ok t) : Inv t := by
  obtain ⟨hcr, hact, hend, hflag, v, hv, ht⟩ := submitResponse_ok_elim h
  have hlt : pid < s.pollCounter := by
    by_contra hge
    have := hs.fresh_poll pid (by omega)
    rw [this] at hcr
    simp [emptyPoll] at hcr
  have hnotmem : c ∉ (s.pollResponses pid).map EncryptedResponse.respondent := by
    intro hmem
    rw [← hs.flag_iff pid c] at hmem
    rw [hmem] at hflag
    cases hflag
  simp only at ht
  -- the two cases of the userResponses scan share every other field
  have base :
      (∀ p, s.pollCounter ≤ p → t.polls p = emptyPoll) ∧
      (∀ p, s.pollCounter ≤ p → t.pollResponses p = []) ∧
      (∀ p, p < s.pollCounter → (t.polls p).creator ≠ 0) ∧
      (∀ p, (t.polls p).responseCount = (t.pollResponses p).length) ∧
      (∀ p r, t.hasResponded p r = true ↔
        r ∈ (t.pollResponses p).map EncryptedResponse.respondent) ∧
      (∀ p, ((t.pollResponses p).map EncryptedResponse.respondent).Nodup) ∧
      t.pollCounter = s.pollCounter := by
    have hfields :
        t.polls = upd s.polls pid
          { s.polls pid with responseCount := (s.polls pid).responseCount + 1 } ∧
        t.pollResponses = upd s.pollResponses pid
          (s.pollResponses pid ++
            [{ respondent := c, encryptedValue := v, submittedAt := now }]) ∧
        t.hasResponded = upd2 s.hasResponded pid c true ∧
        t.pollCounter = s.pollCounter := by
      split at ht <;> subst ht <;> exact ⟨rfl, rfl, rfl, rfl⟩
    obtain ⟨hpo, hre, hfl, hco⟩ := hfields
    rw [hpo, hre, hfl, hco]
    refine ⟨?_, ?_, ?_, ?_, ?_, ?_, rfl⟩
    · intro p hp
      rw [upd_ne _ _ (by omega : p ≠ pid)]
      exact hs.fresh_poll p hp
    · intro p hp
      rw [upd_ne _ _ (by omega : p ≠ pid)]
      exact hs.fresh_resp p hp
    · intro p hp
      by_cases hpe : p = pid
      · subst hpe; rw [upd_same]; exact hs.created_ne p hp
      · rw [upd_ne _ _ hpe]; exact hs.created_ne p hp
    · intro p
      by_cases hpe : p = pid
      · subst hpe; rw [upd_same, upd_same]
        simp [hs.count_eq p]
      · rw [upd_ne _ _ hpe, upd_ne _ _ hpe]; exact hs.count_eq p
    · intro p r
      by_cases hpe : p = pid
      · subst hpe
        rw [upd_same]
        by_cases hre : r = c
        · subst hre
          rw [upd2_same]
          simp
        · rw [upd2_ne _ _ (by intro hx; exact hre hx.2)]
          simp only [List.map_append, List.map_cons, List.map_nil,
            List.mem_append, List.mem_cons, List.not_mem_nil, or_false]
          rw [hs.flag_iff p r]
          constructor
          · exact Or.inl
          · rintro (hm | hm)
            · exact hm
            · exact absurd hm hre
      · rw [upd_ne _ _ hpe, upd2_ne _ _ (by intro hx; exact hpe hx.1)]
        exact hs.flag_iff p r
    · intro p
      by_cases hpe : p = pid
      · subst hpe
        rw [upd_same]
        simp only [List.map_append, List.map_cons, List.map_nil]
        rw [List.nodup_append]
        refine ⟨hs.resp_nodup p, List.nodup_singleton c, ?_⟩
        intro a ha hb
        simp only [List.mem_singleton] at hb
        subst hb
        exact hnotmem ha
      · rw [upd_ne _ _ hpe]
        exact hs.resp_nodup p
  obtain ⟨b1, b2, b3, b4, b5, b6, b7⟩ := base
  have buser : ∀ r, (t.userResponses r).Nodup := by
    split at ht
    · subst ht; exact hs.userResp_nodup
    · rename_i hscan
      subst ht
      intro r
      dsimp only
      by_cases hre : r = c
      · subst hre
        rw [upd_same]
        rw [List.nodup_append]
        refine ⟨hs.userResp_nodup r, List.nodup_singleton pid, ?_⟩
        intro a ha hb
        simp only [List.mem_singleton] at hb
        subst hb
        rw [Bool.not_eq_true] at hscan
        have hmem : containsScan (s.userResponses r) a = true :=
          (containsScan_eq_true_iff _ _).mpr ha
        rw [hscan] at hmem
        cases hmem
      · rw [upd_ne _ _ hre]
        exact hs.userResp_nodup r
  exact ⟨fun p hp => b1 p (by rw [b7] at hp; exact hp),
    fun p hp => b2 p (by rw [b7] at hp; exact hp),
    fun p hp => b3 p (by rw [b7] at hp; exact hp), b4, b5, b6, buser⟩

theorem applyOp_inv {s : PollState} {op : Op} (hs : Inv s)
    (hc : op.sender ≠ 0) : Inv (applyOp s op) := by
  cases op with
  | create now q mn mx et c =>
    simp only [applyOp]
    split
    · rename_i t pid hcp
      exact createPoll_ok_inv hc hs hcp
    · exact hs
  | submit now pid payload c =>
    simp only [applyOp]
    split
    · rename_i t hsub
      exact submitResponse_ok_inv hc hs hsub
    · exact hs
  | close pid c =>
    simp only [applyOp]
    split
    · rename_i t hcl
      exact closePoll_ok_inv hs hcl
    · exact hs

theorem reachable_inv {s : PollState} (h : Reachable s) : Inv s := by
  induction h with
  | init => exact inv_initial
  | step op _ hc ih => exact applyOp_inv ih hc

/-! ## Temporal facts: the counter only grows, closed polls stay closed -/

theorem applyOp_counter_mono (s : PollState) (op : Op) :
    s.pollCounter ≤ (applyOp s op).pollCounter := by
  cases op with
  | create now q mn mx et c =>
    simp only [applyOp]
    split
    · rename_i t pid hcp
      obtain ⟨-, -, -, -, ht⟩ := createPoll_ok_elim hcp
      subst ht; dsimp only; omega
    · exact le_rfl
  | submit now pid payload c =>
    simp only [applyOp]
    split
    · rename_i t hsub
      obtain ⟨-, -, -, -, v, -, ht⟩ := submitResponse_ok_elim hsub
      simp only at ht
      split at ht <;> subst ht <;> exact le_rfl
    · exact le_rfl
  | close pid c =>
    simp only [applyOp]
    split
    · rename_i t hcl
      obtain ⟨-, -, ht⟩ := closePoll_ok_elim hcl
      subst ht; exact le_rfl
    · exact le_rfl

theorem applyOps_counter_mono (s : PollState) (ops : List Op) :
    s.pollCounter ≤ (applyOps s ops).pollCounter := by
  induction ops generalizing s with
  | nil => exact le_rfl
  | cons op ops ih =>
    exact le_trans (applyOp_counter_mono s op) (ih (applyOp s op))

/-- No call ever turns a created poll's `isActive` back to `true`. -/
theorem applyOp_isActive_false (s : PollState) (op : Op) (p : Nat)
    (hp : p < s.pollCounter) (hcl : (s.polls p).isActive = false) :
    ((applyOp s op).polls p).isActive = false := by
  cases op with
  | create now q mn mx et c =>
    simp only [applyOp]
    split
    · rename_i t pid hcp
      obtain ⟨-, -, -, -, ht⟩ := createPoll_ok_elim hcp
      subst ht; dsimp only
      rw [upd_ne _ _ (by omega : p ≠ s.pollCounter)]
      exact hcl
    · exact hcl
  | submit now pid payload c =>
    simp only [applyOp]
    split
    · rename_i t hsub
      obtain ⟨-, -, -, -, v, -, ht⟩ := submitResponse_ok_elim hsub
      simp only at ht
      have hpolls : t.polls = upd s.polls pid
          { s.polls pid with responseCount := (s.polls pid).responseCount + 1 } := by
        split at ht <;> subst ht <;> rfl
      rw [hpolls]
      by_cases hpe : p = pid
      · subst hpe; rw [upd_same]; exact hcl
      · rw [upd_ne _ _ hpe]; exact hcl
    · exact hcl
  | close pid c =>
    simp only [applyOp]
    split
    · rename_i t hcl2
      obtain ⟨-, -, ht⟩ := closePoll_ok_elim hcl2
      subst ht; dsimp only
      by_cases hpe : p = pid
      · subst hpe; rw [upd_same]
      · rw [upd_ne _ _ hpe]; exact hcl
    · exact hcl

/-- Over a whole trace of further calls, a closed poll never becomes
active again. -/
theorem applyOps_isActive_false (s : PollState) (ops : List Op) (p : Nat)
    (hp : p < s.pollCounter) (hcl : (s.polls p).isActive = false) :
    ((applyOps s ops).polls p).isActive = false := by
  induction ops generalizing s with
  | nil => exact hcl
  | cons op ops ih =>
    exact ih (applyOp s op)
      (lt_of_lt_of_le hp (applyOp_counter_mono s op))
      (applyOp_isActive_false s op p hp hcl)

/-! ## The active-poll listing -/

/-- The descending scan loop computes the limit-truncated filter of the
descending id list. -/
theorem activeScan_eq (s : PollState) (now : Nat) (i rem : Nat) :
    activeScan s now i rem =
      ((List.range i).reverse.filter (isOpenPoll s now)).take rem := by
  induction i generalizing rem with
  | zero => simp [activeScan]
  | succ i ih =>
    rw [List.range_succ i]
    simp only [List.reverse_append, List.reverse_cons, List.reverse_nil,
      List.nil_append, List.singleton_append]
    cases rem with
    | zero => simp [activeScan]
    | succ r =>
      by_cases hopen : isOpenPoll s now i = true
      · simp only [activeScan, Nat.succ_ne_zero, if_false, hopen, if_true,
          List.filter_cons, Nat.add_sub_cancel, List.take_succ_cons, ih]
      · simp only [Bool.not_eq_true] at hopen
        simp only [activeScan, Nat.succ_ne_zero, if_false, hopen,
          Bool.false_eq_true, if_false, List.filter_cons, ih]

theorem getActivePolls_eq (s : PollState) (now limit : Nat) :
    getActivePolls s now limit = (openPollsDesc s now).take limit :=
  activeScan_eq s now s.pollCounter limit

theorem openPollsDesc_sorted (s : PollState) (now : Nat) :
    List.Pairwise (· > ·) (openPollsDesc s now) := by
  refine List.Pairwise.filter _ ?_
  rw [List.pairwise_reverse]
  exact List.pairwise_lt_range s.pollCounter

/-! ## Sample data used to exercise the theorems on concrete states -/

/-- A payload the Encryption Provider accepts. -/
def payloadA : Payload := { handle := 42, proofBytes := [1], valid := true }

/-- A payload the Encryption Provider rejects. -/
def payloadBad : Payload := { handle := 0, proofBytes := [], valid := false }

/-- A sample first call: creator 7 opens poll "Q1" with range 1..5 and
deadline 100, at time 0. -/
def opCreate0 : Op := .create 0 "Q1" 1 5 100 7

/-- Storage after the sample create. -/
def state1 : PollState := applyOp initialState opCreate0

/-- Storage after respondent 9 answers poll 0. -/
def state2 : PollState := applyOp state1 (.submit 1 0 payloadA 9)

/-- Storage after creator 7 closes poll 0. -/
def state3 : PollState := applyOp state2 (.close 0 7)

theorem reachable_state1 : Reachable state1 :=
  Reachable.step opCreate0 Reachable.init (by decide)

theorem reachable_state2 : Reachable state2 :=
  Reachable.step (.submit 1 0 payloadA 9) reachable_state1 (by decide)

theorem reachable_state3 : Reachable state3 :=
  Reachable.step (.close 0 7) reachable_state2 (by decide)

/-! ## The claims -/

/-- C1: in every reachable state, for every created poll id `p`, the
stored counter `polls[p].responseCount` equals the length of the response
collection `pollResponses[p]`, and every further call (createPoll,
submitResponse or closePoll, by any caller) preserves this equality. -/
theorem counter_matches_responses {s : PollState} (h : Reachable s) :
    (∀ p, p < s.pollCounter →
      (s.polls p).responseCount = (s.pollResponses p).length)
  ∧ (∀ op : Op, op.sender ≠ 0 → ∀ p, p < (applyOp s op).pollCounter →
      ((applyOp s op).polls p).responseCount
        = ((applyOp s op).pollResponses p).length) :=
  ⟨fun p _ => (reachable_inv h).count_eq p,
   fun op hop p _ => (reachable_inv (Reachable.step op h hop)).count_eq p⟩

theorem counter_matches_responses_witness :
    Reachable state2 ∧
    ((∀ p, p < state2.pollCounter →
        (state2.polls p).responseCount = (state2.pollResponses p).length)
    ∧ (∀ op : Op, op.sender ≠ 0 → ∀ p, p < (applyOp state2 op).pollCounter →
        ((applyOp state2 op).polls p).responseCount
          = ((applyOp state2 op).pollResponses p).length)) :=
  ⟨reachable_state2, counter_matches_responses reachable_state2⟩

/-- C4: in every reachable state, the membership flag `hasResponded[p][r]`
is set exactly when the collection `pollResponses[p]` holds a response by
`r`, and that collection holds at most one response by `r`. -/
theorem flag_agrees_with_collection {s : PollState} (h : Reachable s)
    (p r : Nat) :
    (s.hasResponded p r = true ↔ ∃ e ∈ s.pollResponses p, e.respondent = r)
  ∧ (s.pollResponses p).countP (fun e => e.respondent == r) ≤ 1 := by
  have hinv := reachable_inv h
  constructor
  · rw [hinv.flag_iff p r]
    simp [List.mem_map]
  · have hN := hinv.resp_nodup p
    have h1 : (s.pollResponses p).countP (fun e => e.respondent == r)
        = (List.map EncryptedResponse.respondent (s.pollResponses p)).count r := by
      rw [List.count, List.countP_map]
      rfl
    rw [h1]
    exact List.nodup_iff_count_le_one.mp hN r

theorem flag_agrees_with_collection_witness :
    Reachable state2 ∧
    ((state2.hasResponded 0 9 = true ↔
        ∃ e ∈ state2.pollResponses 0, e.respondent = 9)
    ∧ (state2.pollResponses 0).countP (fun e => e.respondent == 9) ≤ 1) :=
  ⟨reachable_state2, flag_agrees_with_collection reachable_state2 0 9⟩

/-- C9: in every reachable state, each user's reverse "responded" index
`userResponses[r]` lists every poll id at most once. -/
theorem responded_index_nodup {s : PollState} (h : Reachable s) (r : Nat) :
    (s.userResponses r).Nodup :=
  (reachable_inv h).userResp_nodup r

theorem responded_index_nodup_witness :
    Reachable state2 ∧ (state2.userResponses 9).Nodup :=
  ⟨reachable_state2, responded_index_nodup reachable_state2 9⟩

/-- C5: `getActivePolls(limit)` equals the descending scan of created ids
filtered to existing, active, unexpired polls and truncated to `limit`
matches; the result is strictly decreasing, no longer than `limit`, and
free of closed or expired polls. -/
theorem getActivePolls_spec (s : PollState) (now limit : Nat) :
    getActivePolls s now limit = (openPollsDesc s now).take limit
  ∧ List.Pairwise (· > ·) (getActivePolls s now limit)
  ∧ (getActivePolls s now limit).length ≤ limit
  ∧ (∀ p ∈ getActivePolls s now limit,
      (s.polls p).creator ≠ 0 ∧ (s.polls p).isActive = true ∧
        now ≤ (s.polls p).endTime) := by
  refine ⟨getActivePolls_eq s now limit, ?_, ?_, ?_⟩
  · rw [getActivePolls_eq]
    exact (openPollsDesc_sorted s now).sublist (List.take_sublist _ _)
  · rw [getActivePolls_eq]
    simp [List.length_take]
  · intro p hp
    rw [getActivePolls_eq] at hp
    have hp2 : p ∈ openPollsDesc s now := List.take_subset _ _ hp
    have hopen := (List.mem_filter.mp hp2).2
    simp only [isOpenPoll, Bool.and_eq_true, decide_eq_true_eq] at hopen
    exact ⟨hopen.1.1, hopen.1.2, hopen.2⟩

theorem getActivePolls_spec_witness :
    (getActivePolls state1 0 2 = (openPollsDesc state1 0).take 2
    ∧ List.Pairwise (· > ·) (getActivePolls state1 0 2)
    ∧ (getActivePolls state1 0 2).length ≤ 2
    ∧ (∀ p ∈ getActivePolls state1 0 2,
        (state1.polls p).creator ≠ 0 ∧ (state1.polls p).isActive = true ∧
          0 ≤ (state1.polls p).endTime)) :=
  getActivePolls_spec state1 0 2

theorem createPoll_error_isValidation {s : PollState} {now : Nat}
    {q : String} {mn mx et c : Nat} {e : PollError}
    (he : createPoll s now q mn mx et c = .error e) : e.isValidation = true := by
  simp only [createPoll] at he
  split at he
  · cases he; rfl
  · split at he
    · cases he; rfl
    · split at he
      · cases he; rfl
      · cases he

theorem applyOp_create_error {s : PollState} {now : Nat} {q : String}
    {mn mx et c : Nat}
    (h : ∃ e, createPoll s now q mn mx et c = .error e) :
    applyOp s (.create now q mn mx et c) = s := by
  obtain ⟨e, he⟩ := h
  simp [applyOp, he]

theorem createPoll_error_iff (s : PollState) (now : Nat) (q : String)
    (mn mx et c : Nat) :
    (∃ e, createPoll s now q mn mx et c = .error e) ↔
      (q.length = 0 ∨ ¬ mn < mx ∨ ¬ et > now) := by
  by_cases h1 : q.length = 0
  · simp [createPoll, h1]
  · by_cases h2 : mn < mx
    · by_cases h3 : et > now
      · simp [createPoll, h1, h2, h3]
      · simp [createPoll, h1, h2, h3]
    · simp [createPoll, h1, h2]

/-- C6: `createPoll` fails exactly when the question is empty, the range
is not strictly increasing, or the deadline is not strictly in the future;
every failure is a `ValidationError` naming the violated field, and a
failing call leaves the storage untouched (no poll stored, counter and
reverse index unchanged). -/
theorem createPoll_validation (s : PollState) (now : Nat) (q : String)
    (mn mx et c : Nat) :
    ((∃ e, createPoll s now q mn mx et c = .error e) ↔
      (q.length = 0 ∨ ¬ mn < mx ∨ ¬ et > now))
  ∧ (∀ e, createPoll s now q mn mx et c = .error e → e.isValidation = true)
  ∧ ((∃ e, createPoll s now q mn mx et c = .error e) →
      applyOp s (.create now q mn mx et c) = s) :=
  ⟨createPoll_error_iff s now q mn mx et c,
   fun _ he => createPoll_error_isValidation he,
   fun hex => applyOp_create_error hex⟩

theorem createPoll_validation_witness :
    (∃ e, createPoll initialState 0 "Q1" 3 3 100 7 = .error e) ∧
    applyOp initialState (.create 0 "Q1" 3 3 100 7) = initialState :=
  ⟨(createPoll_validation initialState 0 "Q1" 3 3 100 7).1.mpr
      (Or.inr (Or.inl (by decide))),
   (createPoll_validation initialState 0 "Q1" 3 3 100 7).2.2
      ((createPoll_validation initialState 0 "Q1" 3 3 100 7).1.mpr
        (Or.inr (Or.inl (by decide))))⟩

/-- C7: a poll's `isActive` starts `true` at creation, any trace of further
calls keeps a closed poll closed forever, and a second close by the
creator always fails with `AlreadyClosedError`. -/
theorem isActive_one_way {s : PollState} (h : Reachable s) (p : Nat)
    (hp : p < s.pollCounter) :
    (∀ (now : Nat) (q : String) (mn mx et c : Nat) (t : PollState) (pid : Nat),
      createPoll s now q mn mx et c = .ok (t, pid) →
        (t.polls pid).isActive = true)
  ∧ ((s.polls p).isActive = false →
      ∀ ops : List Op, ((applyOps s ops).polls p).isActive = false)
  ∧ ((s.polls p).isActive = false →
      closePoll s p ((s.polls p).creator) = .error .alreadyClosedError) := by
  refine ⟨?_, ?_, ?_⟩
  · intro now q mn mx et c t pid hcp
    obtain ⟨-, -, -, hpid, ht⟩ := createPoll_ok_elim hcp
    subst ht; subst hpid; dsimp only
    rw [upd_same]
  · intro hcl ops
    exact applyOps_isActive_false s ops p hp hcl
  · intro hcl
    simp [closePoll, hcl]

theorem isActive_one_way_witness :
    Reachable state3 ∧ 0 < state3.pollCounter ∧
    (state3.polls 0).isActive = false ∧
    (∀ ops : List Op, ((applyOps state3 ops).polls 0).isActive = false) ∧
    closePoll state3 0 ((state3.polls 0).creator)
      = .error .alreadyClosedError :=
  ⟨reachable_state3, by decide, by decide,
   (isActive_one_way reachable_state3 0 (by decide)).2.1 (by decide),
   (isActive_one_way reachable_state3 0 (by decide)).2.2 (by decide)⟩

/-- C8: the counter starts at 0, each successful create returns the current
counter and bumps it by one, no call ever decreases the counter, and ids
handed out by two successive successful creates (with any calls in
between) are strictly increasing — so no id is ever reused. -/
theorem pollIds_monotone :
    initialState.pollCounter = 0
  ∧ (∀ (s : PollState) (now : Nat) (q : String) (mn mx et c : Nat)
      (t : PollState) (pid : Nat),
      createPoll s now q mn mx et c = .ok (t, pid) →
        pid = s.pollCounter ∧ t.pollCounter = s.pollCounter + 1)
  ∧ (∀ (s : PollState) (op : Op), s.pollCounter ≤ (applyOp s op).pollCounter)
  ∧ (∀ (s : PollState) (now : Nat) (q : String) (mn mx et c : Nat)
      (t : PollState) (pid : Nat),
      createPoll s now q mn mx et c = .ok (t, pid) →
      ∀ (ops : List Op) (now2 : Nat) (q2 : String) (mn2 mx2 et2 c2 : Nat)
        (t2 : PollState) (pid2 : Nat),
        createPoll (applyOps t ops) now2 q2 mn2 mx2 et2 c2 = .ok (t2, pid2) →
        pid < pid2) := by
  refine ⟨rfl, ?_, applyOp_counter_mono, ?_⟩
  · intro s now q mn mx et c t pid hcp
    obtain ⟨-, -, -, hpid, ht⟩ := createPoll_ok_elim hcp
    subst ht; subst hpid; exact ⟨rfl, rfl⟩
  · intro s now q mn mx et c t pid hcp ops now2 q2 mn2 mx2 et2 c2 t2 pid2 hcp2
    obtain ⟨-, -, -, hpid, ht⟩ := createPoll_ok_elim hcp
    obtain ⟨-, -, -, hpid2, -⟩ := createPoll_ok_elim hcp2
    have hmono := applyOps_counter_mono t ops
    subst ht
    dsimp only at hmono
    omega

theorem pollIds_monotone_witness :
    createPoll initialState 0 "Q1" 1 5 100 7 = .ok (state1, 0) ∧
    createPoll (applyOps state1 []) 0 "Q2" 1 5 100 8 = .ok
      (applyOp state1 (.create 0 "Q2" 1 5 100 8), 1) ∧
    (0 : Nat) < 1 :=
  ⟨rfl, rfl,
   pollIds_monotone.2.2.2 initialState 0 "Q1" 1 5 100 7 state1 0 rfl
     [] 0 "Q2" 1 5 100 8 (applyOp state1 (.create 0 "Q2" 1 5 100 8)) 1 rfl⟩

/-- C2: `submitResponse` checks its five preconditions in order, each with
its own distinct failure: not-found, inactive, expired (even while
`isActive` is still `true`), duplicate, and — after the duplicate check —
ill-formed payload per the Encryption Provider's contract; it succeeds
exactly when all five pass. -/
theorem submitResponse_preconditions (s : PollState) (now pollId : Nat)
    (payload : Payload) (sender : Nat) :
    (submitResponse s now pollId payload sender = .error .notFoundError
      ↔ (s.polls pollId).creator = 0)
  ∧ (submitResponse s now pollId payload sender = .error .pollInactiveError
      ↔ (s.polls pollId).creator ≠ 0 ∧ (s.polls pollId).isActive = false)
  ∧ (submitResponse s now pollId payload sender = .error .pollExpiredError
      ↔ (s.polls pollId).creator ≠ 0 ∧ (s.polls pollId).isActive = true ∧
        ¬ now ≤ (s.polls pollId).endTime)
  ∧ (submitResponse s now pollId payload sender = .error .duplicateResponseError
      ↔ (s.polls pollId).creator ≠ 0 ∧ (s.polls pollId).isActive = true ∧
        now ≤ (s.polls pollId).endTime ∧ s.hasResponded pollId sender = true)
  ∧ (submitResponse s now pollId payload sender = .error .invalidPayloadError
      ↔ (s.polls pollId).creator ≠ 0 ∧ (s.polls pollId).isActive = true ∧
        now ≤ (s.polls pollId).endTime ∧ s.hasResponded pollId sender = false ∧
        fheFromExternal payload = none)
  ∧ ((∃ t, submitResponse s now pollId payload sender = .ok t)
      ↔ (s.polls pollId).creator ≠ 0 ∧ (s.polls pollId).isActive = true ∧
        now ≤ (s.polls pollId).endTime ∧ s.hasResponded pollId sender = false ∧
        ∃ v, fheFromExternal payload = some v) := by
  by_cases h1 : (s.polls pollId).creator = 0
  · simp [submitResponse, h1]
  · by_cases h2 : (s.polls pollId).isActive = false
    · simp [submitResponse, h1, h2]
    · rw [Bool.not_eq_false] at h2
      by_cases h3 : now ≤ (s.polls pollId).endTime
      · by_cases h4 : s.hasResponded pollId sender = true
        · simp [submitResponse, h1, h2, h3, h4]
        · rw [Bool.not_eq_true] at h4
          cases hv : fheFromExternal payload with
          | none => simp [submitResponse, h1, h2, h3, h4, hv]
          | some v =>
            have hres : ∃ t, submitResponse s now pollId payload sender = .ok t := by
              simp only [submitResponse]
              rw [if_neg h1, if_neg (by rw [h2]; simp),
                if_neg (not_not_intro h3), if_neg (by rw [h4]; simp), hv]
              dsimp only
              split
              · exact ⟨_, rfl⟩
              · exact ⟨_, rfl⟩
            obtain ⟨t0, ht0⟩ := hres
            have hne : ∀ e, ¬ submitResponse s now pollId payload sender
                = .error e := by
              intro e he
              rw [ht0] at he
              cases he
            refine ⟨?_, ?_, ?_, ?_, ?_, ?_⟩
            · exact iff_of_false (hne _) h1
            · exact iff_of_false (hne _) (fun hx => by rw [hx.2] at h2; cases h2)
            · exact iff_of_false (hne _) (fun hx => hx.2.2 h3)
            · exact iff_of_false (hne _)
                (fun hx => by rw [hx.2.2.2] at h4; cases h4)
            · exact iff_of_false (hne _)
                (fun hx => Option.noConfusion hx.2.2.2.2)
            · exact iff_of_true ⟨t0, ht0⟩ ⟨h1, h2, h3, h4, v, rfl⟩
      · simp [submitResponse, h1, h2, h3]

theorem submitResponse_preconditions_witness :
    (submitResponse state1 1 0 payloadBad 9 = .error .invalidPayloadError
      ↔ (state1.polls 0).creator ≠ 0 ∧ (state1.polls 0).isActive = true ∧
        1 ≤ (state1.polls 0).endTime ∧ state1.hasResponded 0 9 = false ∧
        fheFromExternal payloadBad = none) ∧
    ((∃ t, submitResponse state1 1 0 payloadA 9 = .ok t)
      ↔ (state1.polls 0).creator ≠ 0 ∧ (state1.polls 0).isActive = true ∧
        1 ≤ (state1.polls 0).endTime ∧ state1.hasResponded 0 9 = false ∧
        ∃ v, fheFromExternal payloadA = some v) :=
  ⟨(submitResponse_preconditions state1 1 0 payloadBad 9).2.2.2.2.1,
   (submitResponse_preconditions state1 1 0 payloadA 9).2.2.2.2.2⟩

/-- C3 is refuted on the code: on a fresh deployment, closing the
nonexistent poll 0 as caller 1 fails with the authorization error — the
creator slot of a nonexistent poll is the zero address, which differs from
the caller — not with the not-found error the claim requires. -/
theorem closePoll_nonexistent_counterexample :
    closePoll initialState 0 1 = .error .authorizationError ∧
    ¬ closePoll initialState 0 1 = .error .notFoundError := by
  constructor
  · rfl
  · intro h
    have h2 : (PollError.authorizationError : PollError) = .notFoundError := by
      have h1 : closePoll initialState 0 1 = .error .authorizationError := rfl
      rw [h1] at h
      exact Except.error.inj h
    cases h2

/-- C3 (amended): `closePoll` never reports a not-found failure — its
failures are exactly `AuthorizationError` when the caller differs from the
stored creator (for a nonexistent poll that slot is the zero identity, so
any real caller gets `AuthorizationError` there too) and
`AlreadyClosedError` when the caller is the creator and the poll is
already closed; on success it sets `isActive` to `false`. -/
theorem closePoll_spec (s : PollState) (pollId sender : Nat) :
    (closePoll s pollId sender = .error .authorizationError
      ↔ (s.polls pollId).creator ≠ sender)
  ∧ (closePoll s pollId sender = .error .alreadyClosedError
      ↔ (s.polls pollId).creator = sender ∧ (s.polls pollId).isActive = false)
  ∧ (∀ t, closePoll s pollId sender = .ok t →
      (t.polls pollId).isActive = false ∧
      (s.polls pollId).creator = sender ∧ (s.polls pollId).isActive = true)
  ∧ (∀ e, closePoll s pollId sender = .error e →
      e = .authorizationError ∨ e = .alreadyClosedError) := by
  by_cases h1 : (s.polls pollId).creator = sender
  · by_cases h2 : (s.polls pollId).isActive = false
    · refine ⟨by simp [closePoll, h1, h2], by simp [closePoll, h1, h2], ?_, ?_⟩
      · intro t ht
        simp [closePoll, h1, h2] at ht
      · intro e he
        simp only [closePoll, h1, not_true, if_neg, if_false, h2, if_true] at he
        have : (PollError.alreadyClosedError : PollError) = e := Except.error.inj he
        exact Or.inr this.symm
    · refine ⟨by simp [closePoll, h1, h2], by simp [closePoll, h1, h2], ?_, ?_⟩
      · intro t ht
        obtain ⟨hcr, hact, ht2⟩ := closePoll_ok_elim ht
        subst ht2
        dsimp only
        rw [upd_same]
        exact ⟨rfl, hcr, hact⟩
      · intro e he
        simp [closePoll, h1, h2] at he
  · refine ⟨by simp [closePoll, h1], by simp [closePoll, h1], ?_, ?_⟩
    · intro t ht
      simp [closePoll, h1] at ht
    · intro e he
      simp only [closePoll, h1, if_true, if_neg, not_false_iff] at he
      have : (PollError.authorizationError : PollError) = e := Except.error.inj he
      exact Or.inl this.symm

theorem closePoll_spec_witness :
    (closePoll state3 0 9 = .error .authorizationError
      ↔ (state3.polls 0).creator ≠ 9) ∧
    (closePoll state3 0 7 = .error .alreadyClosedError
      ↔ (state3.polls 0).creator = 7 ∧ (state3.polls 0).isActive = false) :=
  ⟨(closePoll_spec state3 0 9).1, (closePoll_spec state3 0 7).2.1⟩

/-- Success-or-failure outcome of a submission, forgetting the new state. -/
def submitOutcome (r : Except PollError PollState) : Option PollError :=
  match r with
  | .ok _ => none
  | .error e => some e

/-- C10: the outcome of `submitResponse` — success, or which failure — is
independent of the polls' `minValue` and `maxValue` fields: on two states
identical except for those two fields of each poll, the same submission
succeeds or fails identically.  The core never range-checks the encrypted
response. -/
theorem submitResponse_range_agnostic (s t : PollState)
    (hpc : t.pollCounter = s.pollCounter)
    (hresp : t.pollResponses = s.pollResponses)
    (hflag : t.hasResponded = s.hasResponded)
    (hup : t.userPolls = s.userPolls)
    (hur : t.userResponses = s.userResponses)
    (hpolls : ∀ p, (t.polls p).creator = (s.polls p).creator ∧
      (t.polls p).question = (s.polls p).question ∧
      (t.polls p).endTime = (s.polls p).endTime ∧
      (t.polls p).createdAt = (s.polls p).createdAt ∧
      (t.polls p).responseCount = (s.polls p).responseCount ∧
      (t.polls p).isActive = (s.polls p).isActive)
    (now pollId : Nat) (payload : Payload) (sender : Nat) :
    submitOutcome (submitResponse t now pollId payload sender)
      = submitOutcome (submitResponse s now pollId payload sender) := by
  obtain ⟨hcr, hq, he, hca, hrc, hia⟩ := hpolls pollId
  by_cases h1 : (s.polls pollId).creator = 0
  · have h1t : (t.polls pollId).creator = 0 := by rw [hcr]; exact h1
    simp [submitResponse, h1, h1t]
  · have h1t : ¬ (t.polls pollId).creator = 0 := by rw [hcr]; exact h1
    by_cases h2 : (s.polls pollId).isActive = false
    · have h2t : (t.polls pollId).isActive = false := by rw [hia]; exact h2
      simp [submitResponse, h1, h1t, h2, h2t]
    · have h2t : ¬ (t.polls pollId).isActive = false := by rw [hia]; exact h2
      by_cases h3 : now ≤ (s.polls pollId).endTime
      · have h3t : now ≤ (t.polls pollId).endTime := by rw [he]; exact h3
        by_cases h4 : s.hasResponded pollId sender = true
        · have h4t : t.hasResponded pollId sender = true := by
            rw [hflag]; exact h4
          simp [submitResponse, h1, h1t, h2, h2t, h3, h3t, h4, h4t]
        · have h4t : ¬ t.hasResponded pollId sender = true := by
            rw [hflag]; exact h4
          cases hv : fheFromExternal payload with
          | none =>
            simp [submitResponse, h1, h1t, h2, h2t, h3, h3t, h4, h4t, hv]
          | some v =>
            have hredt : submitOutcome
                (submitResponse t now pollId payload sender) = none := by
              simp only [submitResponse]
              rw [if_neg h1t, if_neg h2t, if_neg (not_not_intro h3t),
                if_neg h4t, hv]
              dsimp only
              split
              · rfl
              · rfl
            have hreds : submitOutcome
                (submitResponse s now pollId payload sender) = none := by
              simp only [submitResponse]
              rw [if_neg h1, if_neg h2, if_neg (not_not_intro h3),
                if_neg h4, hv]
              dsimp only
              split
              · rfl
              · rfl
            rw [hredt, hreds]
      · have h3t : ¬ now ≤ (t.polls pollId).endTime := by rw [he]; exact h3
        simp [submitResponse, h1, h1t, h2, h2t, h3, h3t]

/-- A state identical to `state1` except for poll 0's declared range. -/
def state1wide : PollState :=
  { state1 with
    polls := upd state1.polls 0
      { state1.polls 0 with minValue := 100, maxValue := 900 } }

theorem submitResponse_range_agnostic_witness :
    state1wide.pollCounter = state1.pollCounter ∧
    submitOutcome (submitResponse state1wide 1 0 payloadA 9)
      = submitOutcome (submitResponse state1 1 0 payloadA 9) := by
  refine ⟨rfl, ?_⟩
  refine submitResponse_range_agnostic state1 state1wide rfl rfl rfl rfl rfl
    ?_ 1 0 payloadA 9
  intro p
  by_cases hp : p = 0
  · subst hp
    refine ⟨?_, ?_, ?_, ?_, ?_, ?_⟩ <;>
      simp [state1wide, upd_same]
  · simp [state1wide, upd_ne _ _ hp]

end PrivatePoll
